import Mathlib

/-!
# Verification of the SCons construction-environment engine

A shallow embedding of `src/SCons/Environment.py` (the construction-variable
store, the merge algorithms, the flag parser, the decider selection, cloning
and the override-environment proxy), together with theorems settling the
frozen claims about it.

Python values that the claims exercise are modelled by a small closed value
universe (`Atom`, `Elem`, `SVal`): scalars (`None`, strings, integers),
ordered lists whose elements are scalars, tuples of scalars or lists of
scalars, and insertion-ordered dictionaries with scalar keys and values.
Every definition is translated from the source; the few places where the
deciding code lives outside `src/` (the `semi_deepcopy` family from
`SCons/Util.py`, the warning emitter from `SCons/Warnings.py`) are modelled
from the specification and marked as such in their doc comments.
-/

set_option autoImplicit false

namespace SConsEnv

/-- A Python scalar as it occurs in construction-variable values:
`None`, a string, or an integer. -/
inductive Atom where
  | none
  | str (s : String)
  | int (n : Int)
  deriving DecidableEq, Repr

/-- An element of a Python list stored in a construction variable: a scalar,
a tuple of scalars (such as the `(name,)` / `(name, value)` pairs produced
for `CPPDEFINES`), or a list of scalars. Lists are mutable and unhashable in
Python; tuples and scalars are hashable. -/
inductive Elem where
  | atom (a : Atom)
  | tup (xs : List Atom)
  | lst (xs : List Atom)
  deriving DecidableEq, Repr

/-- A construction-variable value: a scalar, an ordered list of elements, or
an insertion-ordered dictionary with scalar keys and values (the shape of a
`CPPDEFINES` mapping such as `{"A": None, "B": 1}`). -/
inductive SVal where
  | atom (a : Atom)
  | list (xs : List Elem)
  | dict (entries : List (Atom × Atom))
  deriving DecidableEq, Repr

/-- Python truthiness of an `Atom`: `None`, `""` and `0` are falsy. -/
def Atom.truthy : Atom → Bool
  | .none => false
  | .str s => s ≠ ""
  | .int n => n ≠ 0

/-- Python truthiness of an `SVal`: empty lists and dicts are falsy. -/
def SVal.truthy : SVal → Bool
  | .atom a => a.truthy
  | .list xs => xs ≠ []
  | .dict es => es ≠ []

/-- Whether an `Elem` is hashable in Python: lists are not, scalars and
tuples are. -/
def Elem.hashable : Elem → Bool
  | .lst _ => false
  | _ => true

/-! ## String slicing primitives

Python string slices (`arg[:n]`, `arg[n:]`, `key[-4:]`), `str.split` and
substring containment, implemented over the character list so that every
definition evaluates inside the kernel. -/

/-- Python `s[:n]`. -/
def strTake (s : String) (n : Nat) : String := String.mk (s.toList.take n)

/-- Python `s[n:]`. -/
def strDrop (s : String) (n : Nat) : String := String.mk (s.toList.drop n)

/-- Python `s[-n:]` for `n > 0` (the whole string when it is shorter). -/
def strTakeRight (s : String) (n : Nat) : String :=
  String.mk ((s.toList.reverse.take n).reverse)

/-- Python `s[:-n]`. -/
def strDropRight (s : String) (n : Nat) : String :=
  String.mk (s.toList.take (s.toList.length - n))

def startsWithList : List Char → List Char → Bool
  | _, [] => true
  | [], _ :: _ => false
  | h :: hs, n :: ns => h = n && startsWithList hs ns

/-- Python `needle in hay` on the underlying character lists. -/
def containsList : List Char → List Char → Bool
  | [], needle => needle.isEmpty
  | c :: rest, needle => startsWithList (c :: rest) needle || containsList rest needle

/-- Python `s.split(sep)` for a single-character separator. -/
def splitChar (sep : Char) : List Char → List (List Char)
  | [] => [[]]
  | c :: rest =>
      if c = sep then [] :: splitChar sep rest
      else
        match splitChar sep rest with
        | h :: t => (c :: h) :: t
        | [] => [[c]]

/-- Python str.join of the parts with the equals-sign separator. -/
def joinEq : List String → String
  | [] => ""
  | [x] => x
  | x :: rest => x ++ "=" ++ joinEq rest

/-! ## Ordered association lists

`dict` objects (`env._dict`, the override map) are insertion-ordered; these
helpers mirror Python `d[k]`, `d[k] = v`, `del d[k]` and `d.get(k)` on an
insertion-ordered association list. -/

/-- `d.get(k)` / `d[k]` lookup on an ordered association list. -/
def aget {α : Type} : List (String × α) → String → Option α
  | [], _ => Option.none
  | (k', v) :: rest, k => if k' = k then some v else aget rest k

/-- `d[k] = v` on an ordered association list: an existing key keeps its
position, a new key is appended (Python dict insertion order). -/
def aset {α : Type} : List (String × α) → String → α → List (String × α)
  | [], k, v => [(k, v)]
  | (k', v') :: rest, k, v =>
      if k' = k then (k, v) :: rest else (k', v') :: aset rest k v

/-- `del d[k]` on an ordered association list; the `Bool` reports whether the
key was present (Python raises `KeyError` when it was not). -/
def adel {α : Type} : List (String × α) → String → Bool × List (String × α)
  | [], _ => (false, [])
  | (k', v') :: rest, k =>
      if k' = k then (true, rest)
      else
        let r := adel rest k
        (r.1, (k', v') :: r.2)

/-! ## `_delete_duplicates` (Environment.py lines 177-193)

The Python function mutates its argument: when `keep_last` is true it calls
`l.reverse()` on the caller's list object and never restores it.  The model
therefore returns a pair: the result list, and the final state of the list
object that was passed in. -/

/-- The `for i in l` loop of `_delete_duplicates`: `seen` is the set of
hashable elements already kept, `result` the output being built.  An
unhashable element (a Python list) makes the `i not in seen` test raise
`TypeError`, which the source catches by keeping the element. -/
def ddLoop : List Elem → List Elem → List Elem → List Elem
  | _, result, [] => result
  | seen, result, i :: rest =>
      if i.hashable then
        if i ∈ seen then ddLoop seen result rest
        else ddLoop (i :: seen) (result ++ [i]) rest
      else ddLoop seen (result ++ [i]) rest

/-- `_delete_duplicates(l, keep_last)`.  First component: the returned list
(duplicates removed, keeping the first occurrence, or the last when
`keep_last`).  Second component: the final state of the caller's list object
`l`, which the source reverses in place via `l.reverse()` when `keep_last`
and never restores. -/
def delete_duplicates (l : List Elem) (keep_last : Bool) : List Elem × List Elem :=
  let l' := if keep_last then l.reverse else l
  let result := ddLoop [] [] l'
  ((if keep_last then result.reverse else result), l')

/-! ## Reserved names and the identifier check (lines 121-136, 310-316) -/

/-- `reserved_construction_var_names` (lines 121-130). -/
def reserved_construction_var_names : List String :=
  ["CHANGED_SOURCES", "CHANGED_TARGETS", "SOURCE", "SOURCES",
   "TARGET", "TARGETS", "UNCHANGED_SOURCES", "UNCHANGED_TARGETS"]

/-- `future_reserved_construction_var_names` (lines 132-136): every entry is
commented out in the source, so the list is empty. -/
def future_reserved_construction_var_names : List String := []

/-- A character matched by the regex class `[_a-zA-Z]` (ASCII model; the
claims only involve ASCII keys). -/
def isStartChar (c : Char) : Bool := c = '_' || c.isAlpha

/-- A character matched by `\w` (ASCII model). -/
def isWordChar (c : Char) : Bool := c = '_' || c.isAlpha || c.isDigit

/-- The core of `_is_valid_var.match`: the whole string matches
`[_a-zA-Z]\w*`. -/
def validVarCore (s : String) : Bool :=
  match s.toList with
  | [] => false
  | c :: rest => isStartChar c && rest.all isWordChar

/-- `is_valid_construction_var` (lines 310-316): `re.match` against
`[_a-zA-Z]\w*$`.  Python's `$` also matches just before a single trailing
newline, which the model reproduces. -/
def is_valid_construction_var (s : String) : Bool :=
  validVarCore s || (strTakeRight s 1 = "\n" && validVarCore (strDropRight s 1))

/-! ## The Base environment store

`SubstitutionEnvironment` / `Base` state relevant to the claims: the
insertion-ordered `_dict`, the warnings emitted so far, and the
scanner-lookup cache validity toggled by `scanner_map_delete`.  Operations
that can raise return an `Env × Option String` pair: the environment after
the call (unchanged when an exception was raised before any mutation) and
the exception message, if any. -/

structure Env where
  vars : List (String × SVal)
  warnings : List String
  scannerCacheValid : Bool
  buildersRebound : Bool
  deriving DecidableEq, Repr

/-- The message of `ReservedVariableWarning` (line 148, format abbreviated:
punctuation of the original message elided). -/
def reservedWarning (k : String) : String :=
  "ReservedVariableWarning: ignoring attempt to set reserved variable " ++ k

/-- Modelled from the spec: `SCons.Warnings.warn` (SCons/Warnings.py, not
under src/) emits a non-fatal warning; per the spec, a reserved-name write is
dropped "with a warning, never an error".  Modelled as appending the message
to the environment's warning log. -/
def warn (e : Env) (msg : String) : Env :=
  { e with warnings := e.warnings ++ [msg] }

/-- `_set_reserved` (lines 147-149): warn and discard the write. -/
def _set_reserved (e : Env) (k : String) (_v : SVal) : Env :=
  warn e (reservedWarning k)

/-- `_set_future_reserved` (lines 151-154): apply the write, then warn.
Unreachable while `future_reserved_construction_var_names` is empty. -/
def _set_future_reserved (e : Env) (k : String) (v : SVal) : Env :=
  warn { e with vars := aset e.vars k v }
    ("FutureReservedVariableWarning: " ++ k)

/-- `_set_BUILDERS` (lines 156-167).  Builder objects live outside this value
model; modelled from the spec: the write "delegate[s] to the BuilderRegistry
update protocol", storing the mapping and rebinding builder methods.  A
non-dict value raises (the source calls `value.items()`).  No claim exercises
this branch. -/
def _set_BUILDERS (e : Env) (k : String) (v : SVal) : Env × Option String :=
  match v with
  | .dict _ => ({ e with vars := aset e.vars k v, buildersRebound := true }, Option.none)
  | _ => (e, some "AttributeError: value has no items method")

/-- `_set_SCANNERS` (lines 173-175): store and invalidate the scanner map. -/
def _set_SCANNERS (e : Env) (k : String) (v : SVal) : Env :=
  { e with vars := aset e.vars k v, scannerCacheValid := false }

/-- `SubstitutionEnvironment.__setitem__` (lines 389-410): dispatch on the
special-set table built by `_init_special` (lines 358-374), then the
already-present-or-valid-identifier check, then a verbatim store. -/
def setitem (e : Env) (key : String) (value : SVal) : Env × Option String :=
  if key ∈ reserved_construction_var_names then (_set_reserved e key value, Option.none)
  else if key ∈ future_reserved_construction_var_names then
    (_set_future_reserved e key value, Option.none)
  else if key = "BUILDERS" then _set_BUILDERS e key value
  else if key = "SCANNERS" then (_set_SCANNERS e key value, Option.none)
  else if (aget e.vars key).isNone && !validVarCore key &&
      !(strTakeRight key 1 = "\n" && validVarCore (strDropRight key 1)) then
    (e, some ("UserError: Illegal construction variable " ++ key))
  else ({ e with vars := aset e.vars key value }, Option.none)

/-- `SubstitutionEnvironment.get` (lines 412-414), with `default=None`
represented by the `Option`. -/
def Env.get (e : Env) (key : String) : Option SVal :=
  aget e.vars key

/-- `SubstitutionEnvironment.__getitem__` (lines 386-387): `self._dict[key]`,
raising `KeyError` when absent. -/
def getitem (e : Env) (key : String) : Except String SVal :=
  match aget e.vars key with
  | some v => .ok v
  | Option.none => .error ("KeyError: " ++ key)

/-- `_del_SCANNERS` (lines 169-171): `del env._dict[key]` (raising `KeyError`
when absent) then `scanner_map_delete`. -/
def _del_SCANNERS (e : Env) (key : String) : Env × Option String :=
  let r := adel e.vars key
  if r.1 then ({ e with vars := r.2, scannerCacheValid := false }, Option.none)
  else (e, some ("KeyError: " ++ key))

/-- `SubstitutionEnvironment.__delitem__` (lines 379-384): the special-delete
table holds only `SCANNERS`; otherwise `del self._dict[key]`. -/
def delitem (e : Env) (key : String) : Env × Option String :=
  if key = "SCANNERS" then _del_SCANNERS e key
  else
    let r := adel e.vars key
    if r.1 then ({ e with vars := r.2 }, Option.none)
    else (e, some ("KeyError: " ++ key))

/-! ## OverrideEnvironment (lines 2387-2529)

A proxy layering an override map on a subject environment.  Only the
dictionary-like methods the claims exercise are modelled. -/

structure OEnv where
  subject : Env
  overrides : List (String × SVal)
  deriving DecidableEq, Repr

/-- `OverrideEnvironment.__getitem__` (lines 2436-2440): try the override
map, fall back to the subject's `__getitem__`. -/
def oeGetitem (oe : OEnv) (key : String) : Except String SVal :=
  match aget oe.overrides key with
  | some v => .ok v
  | Option.none => getitem oe.subject key

/-- `OverrideEnvironment.__setitem__` (lines 2442-2445): reject an invalid
construction-variable name, otherwise store into the override map.  There is
no reserved-name dispatch here: the subject and its warning log are never
touched. -/
def oeSetitem (oe : OEnv) (key : String) (value : SVal) : OEnv × Option String :=
  if !is_valid_construction_var key then
    (oe, some ("UserError: Illegal construction variable " ++ key))
  else ({ oe with overrides := aset oe.overrides key value }, Option.none)

/-- `OverrideEnvironment.__delitem__` (lines 2447-2460): delete from the
override map (remembering whether it was present), then delete from the
subject as well; a `KeyError` from the subject is re-raised only when the
override map did not hold the key either. -/
def oeDelitem (oe : OEnv) (key : String) : OEnv × Option String :=
  let r := adel oe.overrides key
  match delitem oe.subject key with
  | (subj', Option.none) => ({ subject := subj', overrides := r.2 }, Option.none)
  | (_, some msg) =>
      if r.1 then ({ oe with overrides := r.2 }, Option.none)
      else (oe, some msg)

/-- `OverrideEnvironment.get` (lines 2462-2467). -/
def oeGet (oe : OEnv) (key : String) : Option SVal :=
  match aget oe.overrides key with
  | some v => some v
  | Option.none => oe.subject.get key

/-! ## Append (lines 1210-1289)

`Base.Append` processed for a single keyword `key=val` (the loop treats each
keyword independently; `copy_non_reserved_keywords` and
`scanner_map_delete` are modelled at the call sites that need them).  The
result is the new value stored for `key`, or the uncaught exception. -/

/-- Python `orig + val` for this value universe: defined for list + list,
string + string and int + int; every other combination raises `TypeError`
(which `Append` catches and handles by its fallback branches). -/
def addVals : SVal → SVal → Option SVal
  | .list xs, .list ys => some (.list (xs ++ ys))
  | .atom (.str a), .atom (.str b) => some (.atom (.str (a ++ b)))
  | .atom (.int a), .atom (.int b) => some (.atom (.int (a + b)))
  | _, _ => Option.none

/-- The `CPPDEFINES` explosion of a mapping (lines 1267-1273): each
`(k, v)` entry becomes the 2-tuple `(k, v)`, or the 1-tuple `(k,)` when `v`
is `None`. -/
def explodeDict (entries : List (Atom × Atom)) : List Elem :=
  entries.map fun kv =>
    match kv.2 with
    | .none => .tup [kv.1]
    | v => .tup [kv.1, v]

/-- `dict[k] = v` keyed by an `Atom` (insertion-ordered). -/
def dset : List (Atom × Atom) → Atom → Atom → List (Atom × Atom)
  | [], k, v => [(k, v)]
  | (k', v') :: rest, k, v =>
      if k' = k then (k, v) :: rest else (k', v') :: dset rest k v

/-- `orig[v] = None` for each element of a list merged into a dict (lines
1277-1278).  A list element is unhashable and raises `TypeError`
(uncaught); a tuple element is hashable in Python but has no dict-key
representation in this model (no claim exercises it). -/
def dictAbsorbList (entries : List (Atom × Atom)) : List Elem → Except String (List (Atom × Atom))
  | [] => .ok entries
  | .atom a :: rest => dictAbsorbList (dset entries a .none) rest
  | .lst _ :: _ => .error "TypeError: unhashable type list"
  | .tup _ :: _ => .error "model: tuple dict key not represented"

/-- `Base.Append` for one keyword (lines 1217-1287).  `origOpt` is the
current store entry for `key` (`None` = `KeyError` on lookup). -/
def AppendOne (key : String) (origOpt : Option SVal) (val : SVal) : Except String SVal :=
  match origOpt with
  | Option.none =>
      -- lines 1222-1228: no existing var, store the new value
      -- (a CPPDEFINES string is wrapped into a list)
      match key, val with
      | "CPPDEFINES", .atom (.str s) => .ok (.list [.atom (.str s)])
      | _, _ => .ok val
  | some orig0 =>
      -- lines 1219-1220: a CPPDEFINES string value is first wrapped
      let orig := match key, orig0 with
        | "CPPDEFINES", .atom (.str s) => SVal.list [.atom (.str s)]
        | _, _ => orig0
      match orig with
      | .dict entries =>
          -- lines 1259-1287: the original looks like a dictionary
          match val with
          | .list xs =>
              if key = "CPPDEFINES" then
                -- lines 1266-1275: explode the mapping, then `orig += val`
                .ok (.list (explodeDict entries ++ xs))
              else
                (dictAbsorbList entries xs).map .dict
          | .dict vs =>
              -- line 1281: `update_dict(val)` succeeds on a dict
              .ok (.dict (vs.foldl (fun acc kv => dset acc kv.1 kv.2) entries))
          | .atom a =>
              -- lines 1280-1287: `update_dict` raises, `val` is not a dict,
              -- so `orig[val] = None`
              .ok (.dict (dset entries a .none))
      | _ =>
          match addVals orig val with
          | some r => .ok r   -- line 1238: `orig + val`
          | Option.none =>
              -- lines 1239-1256: `+` raised TypeError
              match orig with
              | .list xs =>
                  -- `orig.append(val)` exists: append val as one element
                  -- (only reached when val is not a list, line 1255-1256)
                  if val.truthy then
                    match val with
                    | .atom a => .ok (.list (xs ++ [.atom a]))
                    | .dict _ => .error "model: dict list element not represented"
                    | .list ys => .ok (.list (xs ++ ys))
                  else .ok (.list xs)
              | _ =>
                  -- lines 1243-1251: orig is not a list, val is
                  -- (by elimination); insert orig if truthy
                  match val with
                  | .list ys =>
                      if orig.truthy then
                        match orig with
                        | .atom a => .ok (.list (.atom a :: ys))
                        | _ => .error "model: unreachable orig shape"
                      else .ok (.list ys)
                  | _ => .error "model: unreachable val shape"

/-! ## AppendUnique / PrependUnique (lines 1325-1456, 1810-1848) -/

/-- The `CPPDEFINES` element canonicalization of `AppendUnique` (lines
1343-1352 and the matching later copies): a list element becomes a 2-tuple
of its first two items (1-tuple when it has one item; an empty list raises
`IndexError` on `i[0]`), a tuple is kept, anything else is wrapped into a
1-tuple. -/
def cppdefCanonElem : Elem → Except String Elem
  | .lst [] => .error "IndexError: list index out of range"
  | .lst [a] => .ok (.tup [a])
  | .lst (a :: b :: _) => .ok (.tup [a, b])
  | .tup xs => .ok (.tup xs)
  | .atom a => .ok (.tup [a])

def cppdefCanonList (xs : List Elem) : Except String (List Elem) :=
  xs.mapM cppdefCanonElem

/-- Python `needle in hay` on strings: substring containment (the empty
string is contained in every string). -/
def strContains (hay needle : String) : Bool :=
  containsList hay.toList needle.toList

/-- Python `x not in val` when `val` is a scalar (the source reaches this
with `val` not a list): for a string `val` this is substring containment and
requires `x` to be a string too; any other scalar is not iterable and the
test raises `TypeError`. -/
def elemNotInAtom (x : Elem) (val : Atom) : Except String Bool :=
  match val, x with
  | .str s, .atom (.str xs) => .ok (!(strContains s xs))
  | .str _, _ => .error "TypeError: in requires string as left operand"
  | _, _ => .error "TypeError: argument is not iterable"

/-- `[x for x in l if p x]` where the predicate itself may raise. -/
def exceptFilter (p : Elem → Except String Bool) : List Elem → Except String (List Elem)
  | [] => .ok []
  | x :: rest => do
      let keep ← p x
      let tail ← exceptFilter p rest
      if keep then pure (x :: tail) else pure tail

/-- `Base.AppendUnique` for one keyword `key=val` (lines 1331-1456), after
`copy_non_reserved_keywords` has copied the keyword dict.  `origOpt` is the
current store entry for `key`.  Returns the new value stored for `key` (the
in-place reversal of the copied list by `_delete_duplicates` is modelled
separately, for the frame claims). -/
def appendUniqueOne (delete_existing : Bool) (key : String) (origOpt : Option SVal)
    (val0 : SVal) : Except String SVal :=
  -- lines 1332-1334: a list value is first deduplicated
  let val : SVal := match val0 with
    | .list xs => .list (delete_duplicates xs delete_existing).1
    | v => v
  match origOpt with
  | Option.none => .ok val          -- lines 1335-1336 (key not in self._dict)
  | some orig =>
    if orig = .atom (.str "") || orig = .atom .none then .ok val  -- empty-string/None test
    else match orig, val with
    | .dict es, .dict vs =>
        -- lines 1337-1338: both dicts, update
        .ok (.dict (vs.foldl (fun acc kv => dset acc kv.1 kv.2) es))
    | _, .list xs =>
        -- lines 1339-1385: val is a list
        if key = "CPPDEFINES" then do
          let xs' ← cppdefCanonList xs
          let dk ← match orig with
            | .dict es => pure (explodeDict es)
            | .atom (.str s) => pure [Elem.tup [.str s]]
            | .list ys => cppdefCanonList ys
            | .atom _ => Except.error "TypeError: argument is not iterable"
          if delete_existing then
            .ok (.list (dk.filter (fun x => !(decide (x ∈ xs'))) ++ xs'))
          else
            .ok (.list (dk ++ xs'.filter (fun x => !(decide (x ∈ dk)))))
        else do
          let dk ← match orig with
            | .list ys => pure ys
            | .atom a => pure [Elem.atom a]
            | .dict _ => Except.error "model: dict list element not represented"
          if delete_existing then
            .ok (.list (dk.filter (fun x => !(decide (x ∈ xs))) ++ xs))
          else
            .ok (.list (dk ++ xs.filter (fun x => !(decide (x ∈ dk)))))
    | _, _ =>
        -- lines 1386-1455: val is not a list
        match orig with
        | .list ys =>
            if key = "CPPDEFINES" then do
              -- lines 1389-1418
              let dk ← cppdefCanonList ys
              let val' ← match val with
                | .dict vs => pure (explodeDict vs)
                | .atom (.str s) => pure [Elem.tup [.str s]]
                | .atom a => pure [Elem.atom a]   -- stays scalar; see note below
                | _ => Except.error "model: unreachable"
              -- (a non-string, non-dict scalar stays unwrapped in the
              -- source and then raises on `dk + val`; the claims never
              -- reach it, and the wrapped form above keeps the model
              -- total only for string/dict values, which are the shapes
              -- the source supports without raising)
              match val with
              | .atom (.int _) => Except.error "TypeError: can only concatenate list"
              | .atom .none => Except.error "TypeError: can only concatenate list"
              | _ =>
                -- lines 1413-1418: both arms filter dk by `not in val`
                .ok (.list (dk.filter (fun x => !(decide (x ∈ val'))) ++ val'))
            else do
              -- lines 1419-1427: wrap val in a list
              let v ← match val with
                | .atom a => pure (Elem.atom a)
                | .dict _ => Except.error "model: dict list element not represented"
                | _ => Except.error "model: unreachable"
              if delete_existing then
                -- `x not in val` with scalar val: substring semantics
                let a := match val with | .atom a => a | _ => Atom.none
                let dk' ← exceptFilter (fun x => elemNotInAtom x a) ys
                .ok (.list (dk' ++ [v]))
              else
                if v ∈ ys then .ok (.list ys) else .ok (.list (ys ++ [v]))
        | _ =>
            -- lines 1428-1455: neither side is a list
            if key = "CPPDEFINES" then do
              let dk ← match orig with
                | .atom (.str s) => pure [Elem.atom (.str s)]  -- `dk = [dk]`, bare
                | .dict es => pure (explodeDict es)
                | _ => pure []   -- non-str scalar falls through unwrapped and
                                 -- raises below; no claim reaches it
              match orig with
              | .atom (.int _) => Except.error "TypeError: can only concatenate list"
              | .atom .none => Except.error "TypeError: can only concatenate list"
              | _ => do
                let val' ← match val with
                  | .atom (.str s) =>
                      pure (if Elem.atom (.str s) ∈ dk then ([] : List Elem)
                            else [Elem.atom (.str s)])
                  | .dict vs =>
                      -- lines 1445-1452: `(i, j)` pairs, bare `i` for None
                      pure (vs.map fun kv =>
                        match kv.2 with
                        | .none => Elem.atom kv.1
                        | v => Elem.tup [kv.1, v])
                  | _ => Except.error "TypeError: can only concatenate list"
                let dk' ← if delete_existing then
                    pure (dk.filter (fun x => !(decide (x ∈ val'))))
                  else pure dk
                .ok (.list (dk' ++ val'))
            else
              -- scalar + scalar: `dk + val` (or TypeError); with
              -- delete_existing the comprehension iterates the scalar and
              -- the result then fails to concatenate
              if delete_existing then .error "TypeError: scalar handling"
              else match addVals orig val with
                | some r => .ok r
                | Option.none => .error "TypeError: unsupported operand types"

/-- `Base.PrependUnique` for one keyword `key=val` (lines 1816-1848).  Note
the dedup pass keeps the first occurrence when `delete_existing` is *true*
(`_delete_duplicates(val, not delete_existing)`), mirror-image of
`AppendUnique`. -/
def prependUniqueOne (delete_existing : Bool) (_key : String) (origOpt : Option SVal)
    (val0 : SVal) : Except String SVal :=
  let val : SVal := match val0 with
    | .list xs => .list (delete_duplicates xs (!delete_existing)).1
    | v => v
  match origOpt with
  | Option.none => .ok val
  | some orig =>
    if orig = .atom (.str "") || orig = .atom .none then .ok val
    else match orig, val with
    | .dict es, .dict vs =>
        .ok (.dict (vs.foldl (fun acc kv => dset acc kv.1 kv.2) es))
    | _, .list xs => do
        -- lines 1824-1832
        let dk ← match orig with
          | .list ys => pure ys
          | .atom a => pure [Elem.atom a]
          | .dict _ => Except.error "model: dict list element not represented"
        if delete_existing then
          .ok (.list (xs ++ dk.filter (fun x => !(decide (x ∈ xs)))))
        else
          .ok (.list (xs.filter (fun x => !(decide (x ∈ dk))) ++ dk))
    | _, _ =>
        -- lines 1833-1847
        match orig with
        | .list ys => do
            let v ← match val with
              | .atom a => pure (Elem.atom a)
              | _ => Except.error "model: dict list element not represented"
            if delete_existing then
              let a := match val with | .atom a => a | _ => Atom.none
              let dk' ← exceptFilter (fun x => elemNotInAtom x a) ys
              .ok (.list (v :: dk'))
            else
              if v ∈ ys then .ok (.list ys) else .ok (.list (v :: ys))
        | _ =>
            if delete_existing then .error "TypeError: scalar handling"
            else match addVals val orig with
              | some r => .ok r
              | Option.none => .error "TypeError: unsupported operand types"

/-! ## MergeFlags (lines 837-897)

The per-key merge with `unique=True`; values are modelled as the lists of
flag strings the flag parser produces. -/

/-- The `PATH`-key dedup loop (lines 888-891): `t = []; for v in orig: if v
not in t: t.append(v)` — keeps the left-most occurrence. -/
def keepLeftLoop {α : Type} [DecidableEq α] (t : List α) : List α → List α
  | [] => t
  | v :: rest => if v ∈ t then keepLeftLoop t rest else keepLeftLoop (t ++ [v]) rest

/-- The non-`PATH` dedup loop body (lines 893-896): `for v in orig[::-1]: if
v not in t: t.insert(0, v)` — this function is the loop over the already
reversed list; it keeps the right-most occurrence. -/
def keepRightLoop {α : Type} [DecidableEq α] (t : List α) : List α → List α
  | [] => t
  | v :: rest => if v ∈ t then keepRightLoop t rest else keepRightLoop (v :: t) rest

/-- `SubstitutionEnvironment.MergeFlags` with `unique=True`, for one key
(lines 858-897).  `origOpt` is the current value of the variable (`none` =
`KeyError`); the result is `none` when the key is skipped (`if not value:
continue`), otherwise the new value stored. -/
def mergeFlagsCombine (origOpt : Option (List String)) (value : List String) :
    List String :=
  match origOpt with
  | Option.none => value                     -- except KeyError: orig = value
  | some o => if o = [] then value           -- if not orig: orig = value
              else o ++ value                -- orig = orig + value

def mergeFlagsOne (key : String) (origOpt : Option (List String))
    (value : List String) : Option (List String) :=
  if value = [] then Option.none
  else
    some (if strTakeRight key 4 = "PATH"
          then keepLeftLoop [] (mergeFlagsCombine origOpt value)
          else keepRightLoop [] (mergeFlagsCombine origOpt value).reverse)

/-! ## ParseFlags (lines 644-835)

The flag-string tokenizer/classifier.  `fs.File` (the external node
factory) is kept opaque: a bare token destined for `LIBS` becomes a
`file` element, and the `-include`/`-imacros` arguments become `pairFile`
entries. -/

/-- An element of one of the `CLVar`-valued outputs: a plain token, a
2-tuple `(flag, arg)`, or a 2-tuple whose argument was wrapped by
`fs.File`. -/
inductive Tok where
  | str (s : String)
  | pair (flag arg : String)
  | pairFile (flag arg : String)
  deriving DecidableEq, Repr

/-- A `CPPDEFINES` entry produced by `append_define` (lines 689-694): a bare
name, or the 2-element list `[name, value]` from splitting on the first
`=`. -/
inductive DefElem where
  | name (s : String)
  | nameValue (xs : List String)
  deriving DecidableEq, Repr

/-- A `LIBS` entry: a library name string, or an `fs.File` node from a bare
token (line 752). -/
inductive LibElem where
  | str (s : String)
  | file (s : String)
  deriving DecidableEq, Repr

/-- The fixed output mapping of `ParseFlags` (lines 659-673). -/
structure FlagMapping where
  ASFLAGS : List Tok := []
  CFLAGS : List Tok := []
  CCFLAGS : List Tok := []
  CXXFLAGS : List Tok := []
  CPPDEFINES : List DefElem := []
  CPPFLAGS : List Tok := []
  CPPPATH : List String := []
  FRAMEWORKPATH : List Tok := []
  FRAMEWORKS : List Tok := []
  LIBPATH : List String := []
  LIBS : List LibElem := []
  LINKFLAGS : List Tok := []
  RPATH : List String := []
  deriving DecidableEq, Repr

/-- `append_define` (lines 689-694): split on `=`; one part appends the bare
name, otherwise the 2-element list of the head and the rejoined tail. -/
def append_define (m : FlagMapping) (nm : String) : FlagMapping :=
  let t := (splitChar '=' nm.toList).map String.mk
  if t.length = 1 then { m with CPPDEFINES := m.CPPDEFINES ++ [.name nm] }
  else
    { m with CPPDEFINES :=
        m.CPPDEFINES ++ [.nameValue [t.headD "", joinEq t.tail]] }

/-- Consuming the token following a multi-word flag (lines 719-750), keyed by
the source's `append_next_arg_to` string. -/
def handlePending (m : FlagMapping) (p : String) (arg : String) : FlagMapping :=
  if p = "CPPDEFINES" then append_define m arg
  else if p = "-include" then { m with CCFLAGS := m.CCFLAGS ++ [.pairFile p arg] }
  else if p = "-imacros" then { m with CCFLAGS := m.CCFLAGS ++ [.pairFile p arg] }
  else if p = "-isysroot" then
    { m with CCFLAGS := m.CCFLAGS ++ [.pair p arg],
             LINKFLAGS := m.LINKFLAGS ++ [.pair p arg] }
  else if p = "-isystem" then { m with CCFLAGS := m.CCFLAGS ++ [.pair p arg] }
  else if p = "-iquote" then { m with CCFLAGS := m.CCFLAGS ++ [.pair p arg] }
  else if p = "-idirafter" then { m with CCFLAGS := m.CCFLAGS ++ [.pair p arg] }
  else if p = "-arch" then
    { m with CCFLAGS := m.CCFLAGS ++ [.pair p arg],
             LINKFLAGS := m.LINKFLAGS ++ [.pair p arg] }
  else if p = "--param" then { m with CCFLAGS := m.CCFLAGS ++ [.pair p arg] }
  -- line 748-749: `mapping[append_next_arg_to].append(arg)`
  else if p = "LINKFLAGS" then { m with LINKFLAGS := m.LINKFLAGS ++ [.str arg] }
  else if p = "LIBPATH" then { m with LIBPATH := m.LIBPATH ++ [arg] }
  else if p = "LIBS" then { m with LIBS := m.LIBS ++ [.str arg] }
  else if p = "CPPPATH" then { m with CPPPATH := m.CPPPATH ++ [arg] }
  else if p = "FRAMEWORKS" then { m with FRAMEWORKS := m.FRAMEWORKS ++ [.str arg] }
  else if p = "FRAMEWORKPATH" then
    { m with FRAMEWORKPATH := m.FRAMEWORKPATH ++ [.str arg] }
  else m

/-- The token classifier (lines 751-831), in the source's test order.
String slices `arg[:n]` / `arg[n:]` are `String.take` / `String.drop`; the
`arg[0]` tests assume the non-empty tokens word-splitting produces. -/
def classify (m : FlagMapping) (arg : String) : FlagMapping × Option String :=
  if strTake arg 1 ≠ "-" && strTake arg 1 ≠ "+" then
    ({ m with LIBS := m.LIBS ++ [.file arg] }, Option.none)
  else if arg = "-dylib_file" then
    ({ m with LINKFLAGS := m.LINKFLAGS ++ [.str arg] }, some "LINKFLAGS")
  else if strTake arg 2 = "-L" then
    if strDrop arg 2 ≠ "" then ({ m with LIBPATH := m.LIBPATH ++ [strDrop arg 2] }, Option.none)
    else (m, some "LIBPATH")
  else if strTake arg 2 = "-l" then
    if strDrop arg 2 ≠ "" then ({ m with LIBS := m.LIBS ++ [.str (strDrop arg 2)] }, Option.none)
    else (m, some "LIBS")
  else if strTake arg 2 = "-I" then
    if strDrop arg 2 ≠ "" then ({ m with CPPPATH := m.CPPPATH ++ [strDrop arg 2] }, Option.none)
    else (m, some "CPPPATH")
  else if strTake arg 4 = "-Wa," then
    ({ m with ASFLAGS := m.ASFLAGS ++ [.str (strDrop arg 4)],
              CCFLAGS := m.CCFLAGS ++ [.str arg] }, Option.none)
  else if strTake arg 4 = "-Wl," then
    if strTake arg 11 = "-Wl,-rpath=" then
      ({ m with RPATH := m.RPATH ++ [strDrop arg 11] }, Option.none)
    else if strTake arg 7 = "-Wl,-R," then
      ({ m with RPATH := m.RPATH ++ [strDrop arg 7] }, Option.none)
    else if strTake arg 6 = "-Wl,-R" then
      ({ m with RPATH := m.RPATH ++ [strDrop arg 6] }, Option.none)
    else ({ m with LINKFLAGS := m.LINKFLAGS ++ [.str arg] }, Option.none)
  else if strTake arg 4 = "-Wp," then
    ({ m with CPPFLAGS := m.CPPFLAGS ++ [.str arg] }, Option.none)
  else if strTake arg 2 = "-D" then
    if strDrop arg 2 ≠ "" then (append_define m (strDrop arg 2), Option.none)
    else (m, some "CPPDEFINES")
  else if arg = "-framework" then (m, some "FRAMEWORKS")
  else if strTake arg 14 = "-frameworkdir=" then
    ({ m with FRAMEWORKPATH := m.FRAMEWORKPATH ++ [.str (strDrop arg 14)] }, Option.none)
  else if strTake arg 2 = "-F" then
    if strDrop arg 2 ≠ "" then
      ({ m with FRAMEWORKPATH := m.FRAMEWORKPATH ++ [.str (strDrop arg 2)] }, Option.none)
    else (m, some "FRAMEWORKPATH")
  else if arg = "-mno-cygwin" || arg = "-pthread" || arg = "-openmp" ||
      arg = "-fmerge-all-constants" || arg = "-fopenmp" || strTake arg 10 = "-fsanitize" then
    ({ m with CCFLAGS := m.CCFLAGS ++ [.str arg],
              LINKFLAGS := m.LINKFLAGS ++ [.str arg] }, Option.none)
  else if arg = "-mwindows" then
    ({ m with LINKFLAGS := m.LINKFLAGS ++ [.str arg] }, Option.none)
  else if strTake arg 5 = "-std=" then
    if strContains (strDrop arg 5) "++" then
      ({ m with CXXFLAGS := m.CXXFLAGS ++ [.str arg] }, Option.none)
    else ({ m with CFLAGS := m.CFLAGS ++ [.str arg] }, Option.none)
  else if strTake arg 1 = "+" then
    ({ m with CCFLAGS := m.CCFLAGS ++ [.str arg],
              LINKFLAGS := m.LINKFLAGS ++ [.str arg] }, Option.none)
  else if arg = "-include" || arg = "-imacros" || arg = "-isysroot" ||
      arg = "-isystem" || arg = "-iquote" || arg = "-idirafter" ||
      arg = "-arch" || arg = "--param" then
    (m, some arg)
  else ({ m with CCFLAGS := m.CCFLAGS ++ [.str arg] }, Option.none)

/-- The `for arg in params` loop (lines 717-831): threads the mapping and the
`append_next_arg_to` state through the token list. -/
def parseTokens : FlagMapping → Option String → List String → FlagMapping
  | m, _, [] => m
  | m, some p, arg :: rest => parseTokens (handlePending m p arg) Option.none rest
  | m, Option.none, arg :: rest =>
      let r := classify m arg
      parseTokens r.1 r.2 rest

/-- `shlex.split` for the quote-free, escape-free flag strings the claims
use: split on spaces, dropping empty words. -/
def shlexSplitSimple (s : String) : List String :=
  ((splitChar ' ' s.toList).map String.mk).filter (fun w => w ≠ "")

/-- `SubstitutionEnvironment.ParseFlags` applied to a single flag string
(lines 644-835): tokenize, then classify each token. -/
def ParseFlags (s : String) : FlagMapping :=
  parseTokens {} Option.none (shlexSplitSimple s)

/-! ## A small heap for aliasing claims (Clone, keyword-copying)

Python list objects are mutable and shared by reference; the claims about
`Clone` independence and about `_delete_duplicates` mutating its argument
are aliasing statements, so list-valued variables are modelled as addresses
into an explicit heap of list cells. -/

structure Heap where
  cells : List (List Elem)
  deriving DecidableEq, Repr

/-- Dereference an address (out-of-range reads never arise under the
well-formedness hypothesis used by the theorems). -/
def Heap.read (h : Heap) (a : Nat) : List Elem :=
  (h.cells.get? a).getD []

/-- In-place mutation of the list object at address `a`. -/
def Heap.write (h : Heap) (a : Nat) (xs : List Elem) : Heap :=
  ⟨h.cells.set a xs⟩

/-- Create a fresh list object holding `xs`; returns the new heap and the
fresh address. -/
def Heap.alloc (h : Heap) (xs : List Elem) : Heap × Nat :=
  (⟨h.cells ++ [xs]⟩, h.cells.length)

/-- An environment for the cloning claims: `_dict` maps variable names to
addresses of list objects, and the `BUILDERS` registry (`BuilderDict`) maps
builder names to builder object identities.  The registry is a field of the
environment record itself: each environment owns its registry. -/
structure CEnv where
  vars : List (String × Nat)
  builders : List (String × Nat)
  deriving DecidableEq, Repr

/-- Modelled from the spec: `semi_deepcopy_dict` (SCons/Util.py, not under
src/) used by `Clone` (line 1472) produces "a structural copy (recursively
duplicating mutable containers)": every list-valued variable gets a fresh
list object with the same contents. -/
def copyVars : Heap → List (String × Nat) → Heap × List (String × Nat)
  | h, [] => (h, [])
  | h, (k, a) :: rest =>
      let r := h.alloc (h.read a)
      let r2 := copyVars r.1 rest
      (r2.1, (k, r.2) :: r2.2)

/-- `Base.Clone` (lines 1458-1504), restricted to the store and registry
structure the claim is about: the variable store is semi-deep-copied (fresh
list objects, `BUILDERS` excluded), and the clone's `BUILDERS` registry is a
fresh `BuilderDict` built from the *same* builder objects
(`BuilderDict(builders, clone)`, line 1473; `BuilderDict.__semi_deepcopy__`,
lines 285-288, forbids copying the registry itself). -/
def cloneEnv (h : Heap) (e : CEnv) : Heap × CEnv :=
  let r := copyVars h e.vars
  (r.1, ⟨r.2, e.builders⟩)

/-- Read a list-valued variable through an environment. -/
def readVar (h : Heap) (e : CEnv) (k : String) : Option (List Elem) :=
  (aget e.vars k).map (h.read ·)

/-- Mutate (in place) the list object a variable refers to. -/
def mutateVar (h : Heap) (e : CEnv) (k : String) (xs : List Elem) : Heap :=
  match aget e.vars k with
  | some a => h.write a xs
  | Option.none => h

/-- Every address an environment holds points into the heap. -/
def EnvAddrsWF (e : CEnv) (h : Heap) : Prop :=
  ∀ p ∈ e.vars, p.2 < h.cells.length

/-- `copy_non_reserved_keywords` + `_delete_duplicates` as they act on the
heap in `AppendUnique` / `PrependUnique` (lines 1331-1334, 1816-1819): the
keyword dict is first semi-deep-copied (modelled from the spec, like
`copyVars`: the caller's list is duplicated into a fresh cell), and
`_delete_duplicates(val, keep_last)` then mutates that fresh copy in place
(`l.reverse()` when `keep_last`). -/
def uniqueKwListState (h : Heap) (callerAddr : Nat) (keep_last : Bool) : Heap :=
  let r := h.alloc (h.read callerAddr)
  r.1.write r.2 (delete_duplicates (r.1.read r.2) keep_last).2

/-! ## Decider (lines 1506-1550) -/

/-- The argument of `Base.Decider`: a symbolic name string, or a callable
(identified opaquely; the source only checks `callable(function)`). -/
inductive DeciderArg where
  | str (s : String)
  | callable (id : Nat)
  deriving DecidableEq, Repr

/-- The decision function installed by `Decider`: one of the bound methods
`_changed_content`, `_changed_timestamp_then_content`,
`_changed_timestamp_newer`, `_changed_timestamp_match` (lines 1511-1529), or
the user's callable. -/
inductive DecideFn where
  | changed_content
  | changed_timestamp_then_content
  | changed_timestamp_newer
  | changed_timestamp_match
  | custom (id : Nat)
  deriving DecidableEq, Repr

/-- The three attributes `Decider` touches on the environment. -/
structure DeciderEnv where
  decide_source : DecideFn
  decide_target : DecideFn
  cache_timestamp_newer : Bool
  deriving DecidableEq, Repr

/-- `Base.Decider` (lines 1531-1550): reset `cache_timestamp_newer`, map the
known symbolic names to the bound methods (flipping the flag for
`timestamp-newer`/`make`), accept any callable, raise `UserError` otherwise;
finally install the selected function as both `decide_target` and
`decide_source`.  The environment is returned alongside the possible
exception (the flag reset at line 1532 has already happened when the error
is raised). -/
def Decider (e : DeciderEnv) (arg : DeciderArg) : DeciderEnv × Option String :=
  let e1 : DeciderEnv := { e with cache_timestamp_newer := false }
  let install : DecideFn → Bool → DeciderEnv × Option String := fun f flag =>
    ({ decide_source := f, decide_target := f, cache_timestamp_newer := flag },
     Option.none)
  match arg with
  | .callable id => install (.custom id) false
  | .str s =>
      if s = "MD5" || s = "content" then install .changed_content false
      else if s = "MD5-timestamp" || s = "content-timestamp" then
        install .changed_timestamp_then_content false
      else if s = "timestamp-newer" || s = "make" then
        install .changed_timestamp_newer true
      else if s = "timestamp-match" then install .changed_timestamp_match false
      else (e1, some ("UserError: Unknown Decider value " ++ s))

/-- Spec-side: the selectors the spec lists as accepted. -/
def validDeciderArg : DeciderArg → Bool
  | .str s => s ∈ ["MD5", "content", "MD5-timestamp", "content-timestamp",
                   "timestamp-newer", "make", "timestamp-match"]
  | .callable _ => true

/-- Spec-side: the selectors that should set the cache-timestamp flag. -/
def cacheFlagExpected : DeciderArg → Bool
  | .str s => s = "timestamp-newer" || s = "make"
  | .callable _ => false

/-! ## The MergeFlags dedup loops equal keep-first / keep-last dedup

`List.dedup` keeps the right-most occurrence of each element; the `PATH`
loop is its mirror image. -/

/-! ## Lemmas about the embedded operations -/

theorem aget_aset_same {α : Type} (l : List (String × α)) (k : String) (v : α) :
    aget (aset l k v) k = some v := by
  induction l with
  | nil => simp [aget, aset]
  | cons hd tl ih =>
      obtain ⟨k', v'⟩ := hd
      by_cases h : k' = k <;> simp [aget, aset, h, ih]

theorem aget_aset_ne {α : Type} (l : List (String × α)) (k k' : String) (v : α)
    (h : k ≠ k') : aget (aset l k v) k' = aget l k' := by
  induction l with
  | nil => simp [aget, aset, h]
  | cons hd tl ih =>
      obtain ⟨k0, v0⟩ := hd
      by_cases h0 : k0 = k
      · subst h0
        simp [aget, aset, h]
      · simp only [aset, if_neg h0, aget]
        by_cases h1 : k0 = k' <;> simp [h1, ih]

theorem Heap.read_append (h : Heap) (t : List (List Elem)) (a : Nat)
    (ha : a < h.cells.length) : Heap.read ⟨h.cells ++ t⟩ a = h.read a := by
  simp [Heap.read, List.get?_eq_getElem?, List.getElem?_append_left ha]

theorem Heap.read_alloc_fresh (h : Heap) (xs : List Elem) :
    (h.alloc xs).1.read (h.alloc xs).2 = xs := by
  simp [Heap.alloc, Heap.read, List.get?_eq_getElem?]

theorem Heap.read_write_ne (h : Heap) (a b : Nat) (xs : List Elem)
    (hab : a ≠ b) : (h.write b xs).read a = h.read a := by
  simp [Heap.write, Heap.read, List.get?_eq_getElem?,
    List.getElem?_set_ne (Ne.symm hab)]

theorem Heap.read_write_self (h : Heap) (a : Nat) (xs : List Elem)
    (ha : a < h.cells.length) : (h.write a xs).read a = xs := by
  simp [Heap.write, Heap.read, List.get?_eq_getElem?, List.getElem?_set_self, ha]

theorem aget_mem {α : Type} (l : List (String × α)) (k : String) (v : α)
    (h : aget l k = some v) : (k, v) ∈ l := by
  induction l with
  | nil => simp [aget] at h
  | cons hd tl ih =>
      obtain ⟨k', v'⟩ := hd
      by_cases hk : k' = k
      · subst hk
        simp only [aget, eq_self_iff_true, if_true, Option.some.injEq] at h
        subst h
        exact List.mem_cons_self _ _
      · simp only [aget, if_neg hk] at h
        exact List.mem_cons_of_mem _ (ih h)

/-- Cloning the store only appends fresh cells: reads through any address
already in the heap are unchanged. -/
theorem copyVars_read_old (l : List (String × Nat)) (h : Heap) (a : Nat)
    (ha : a < h.cells.length) : (copyVars h l).1.read a = h.read a := by
  induction l generalizing h with
  | nil => rfl
  | cons hd tl ih =>
      obtain ⟨k0, a0⟩ := hd
      have step : (copyVars h ((k0, a0) :: tl)).1
          = (copyVars ⟨h.cells ++ [h.read a0]⟩ tl).1 := by
        simp [copyVars, Heap.alloc]
      rw [step, ih ⟨h.cells ++ [h.read a0]⟩ (by simp; omega)]
      exact Heap.read_append h [h.read a0] a ha

/-- The copy maps every variable to a fresh address (at or beyond the old
heap end) whose cell holds the contents of the original's list object. -/
theorem copyVars_lookup (l : List (String × Nat)) (h : Heap) (k : String) (a : Nat)
    (hwl : ∀ p ∈ l, p.2 < h.cells.length)
    (ha : aget l k = some a) :
    ∃ a', aget (copyVars h l).2 k = some a' ∧ h.cells.length ≤ a' ∧
      (copyVars h l).1.read a' = h.read a := by
  induction l generalizing h with
  | nil => simp [aget] at ha
  | cons hd tl ih =>
      obtain ⟨k0, a0⟩ := hd
      have step : (copyVars h ((k0, a0) :: tl)).1
          = (copyVars ⟨h.cells ++ [h.read a0]⟩ tl).1 := by
        simp [copyVars, Heap.alloc]
      by_cases hk : k0 = k
      · subst hk
        simp only [aget, eq_self_iff_true, if_true, Option.some.injEq] at ha
        subst ha
        refine ⟨h.cells.length, ?_, le_refl _, ?_⟩
        · simp [copyVars, aget, Heap.alloc]
        · rw [step, copyVars_read_old tl ⟨h.cells ++ [h.read a0]⟩ h.cells.length (by simp)]
          simpa [Heap.alloc] using Heap.read_alloc_fresh h (h.read a0)
      · simp only [aget, if_neg hk] at ha
        have hwl' : ∀ p ∈ tl, p.2 < (Heap.mk (h.cells ++ [h.read a0])).cells.length := by
          intro p hp
          have := hwl p (List.mem_cons_of_mem _ hp)
          simp only [List.length_append, List.length_cons, List.length_nil]
          omega
        obtain ⟨a', h1, h2, h3⟩ := ih ⟨h.cells ++ [h.read a0]⟩ hwl' ha
        have haorig : a < h.cells.length := hwl (k, a) (List.mem_cons_of_mem _ (aget_mem tl k a ha))
        refine ⟨a', ?_, ?_, ?_⟩
        · simpa [copyVars, aget, if_neg hk, Heap.alloc] using h1
        · simp only [List.length_append, List.length_cons, List.length_nil] at h2
          omega
        · rw [step, h3]
          exact Heap.read_append h [h.read a0] a haorig

theorem keepRightLoop_append {α : Type} [DecidableEq α] (l1 l2 t : List α) :
    keepRightLoop t (l1 ++ l2) = keepRightLoop (keepRightLoop t l1) l2 := by
  induction l1 generalizing t with
  | nil => rfl
  | cons v rest ih =>
      by_cases hv : v ∈ t <;> simp [keepRightLoop, hv, ih]

theorem keepRightLoop_reverse_eq_dedup {α : Type} [DecidableEq α] (l : List α) :
    keepRightLoop [] l.reverse = l.dedup := by
  induction l with
  | nil => rfl
  | cons x rest ih =>
      rw [List.reverse_cons, keepRightLoop_append, ih]
      by_cases hx : x ∈ rest
      · have : x ∈ rest.dedup := List.mem_dedup.mpr hx
        simp [keepRightLoop, this, List.dedup_cons_of_mem hx]
      · have : x ∉ rest.dedup := fun hc => hx (List.mem_dedup.mp hc)
        simp [keepRightLoop, this, List.dedup_cons_of_not_mem hx]

theorem keepLeftLoop_reverse {α : Type} [DecidableEq α] (l : List α) :
    ∀ t, (keepLeftLoop t l).reverse = keepRightLoop t.reverse l := by
  induction l with
  | nil => intro t; rfl
  | cons v rest ih =>
      intro t
      by_cases hv : v ∈ t
      · have hv' : v ∈ t.reverse := List.mem_reverse.mpr hv
        simp [keepLeftLoop, keepRightLoop, hv, hv', ih]
      · have hv' : v ∉ t.reverse := fun hc => hv (List.mem_reverse.mp hc)
        have := ih (t ++ [v])
        simp only [List.reverse_append, List.reverse_cons, List.reverse_nil,
          List.nil_append, List.singleton_append] at this
        simp [keepLeftLoop, keepRightLoop, hv, hv', this]

theorem keepLeftLoop_eq_dedup {α : Type} [DecidableEq α] (l : List α) :
    keepLeftLoop [] l = (l.reverse.dedup).reverse := by
  have h1 : (keepLeftLoop ([] : List α) l).reverse = keepRightLoop [] l :=
    keepLeftLoop_reverse l []
  have h2 : keepRightLoop [] l = l.reverse.dedup := by
    have := keepRightLoop_reverse_eq_dedup l.reverse
    rwa [List.reverse_reverse] at this
  calc keepLeftLoop [] l = ((keepLeftLoop [] l).reverse).reverse := by
        rw [List.reverse_reverse]
    _ = (l.reverse.dedup).reverse := by rw [h1, h2]

/-! ## Helper lemmas on association lists -/

theorem adel_found_iff {α : Type} (l : List (String × α)) (k : String) :
    (adel l k).1 = (aget l k).isSome := by
  induction l with
  | nil => simp [adel, aget]
  | cons hd tl ih =>
      obtain ⟨k', v'⟩ := hd
      by_cases h : k' = k <;> simp [adel, aget, h, ih]

theorem aget_not_mem {α : Type} (l : List (String × α)) (k : String)
    (h : k ∉ l.map Prod.fst) : aget l k = Option.none := by
  induction l with
  | nil => rfl
  | cons hd tl ih =>
      obtain ⟨k', v'⟩ := hd
      simp only [List.map_cons, List.mem_cons] at h
      push_neg at h
      have hne : ¬ k' = k := fun hc => h.1 hc.symm
      simp [aget, hne, ih h.2]

theorem aget_adel_none {α : Type} (l : List (String × α)) (k : String)
    (hnd : (l.map Prod.fst).Nodup) : aget (adel l k).2 k = Option.none := by
  induction l with
  | nil => rfl
  | cons hd tl ih =>
      obtain ⟨k', v'⟩ := hd
      simp only [List.map_cons, List.nodup_cons] at hnd
      by_cases h : k' = k
      · subst h
        simpa [adel] using aget_not_mem tl k' hnd.1
      · simp [adel, aget, h, ih hnd.2]

theorem aget_adel_sub {α : Type} (l : List (String × α)) (k k' : String)
    (h : k ≠ k') : aget (adel l k).2 k' = aget l k' := by
  induction l with
  | nil => rfl
  | cons hd tl ih =>
      obtain ⟨k0, v0⟩ := hd
      by_cases h0 : k0 = k
      · subst h0
        simp [adel, aget, h]
      · simp only [adel, if_neg h0, aget]
        by_cases h1 : k0 = k' <;> simp [h1, ih]

/-! ## Theorems for the claims -/

/-- C1 (counterexample): with subject `E = {X: 0}` and override layer
`{X: 1}`, deleting `X` through `OverrideEnvironment.__delitem__` does *not*
leave the subject unchanged — `X` disappears from the subject's store as
well — and the subsequent read of `E2["X"]` raises `KeyError` instead of
falling back to `0`. -/
theorem oeDelitem_subject_not_preserved_cex :
    aget ((oeDelitem ⟨⟨[("X", SVal.atom (.int 0))], [], true, false⟩,
        [("X", SVal.atom (.int 1))]⟩ "X").1).subject.vars "X" = Option.none ∧
    oeGetitem ((oeDelitem ⟨⟨[("X", SVal.atom (.int 0))], [], true, false⟩,
        [("X", SVal.atom (.int 1))]⟩ "X").1) "X" = .error "KeyError: X" ∧
    ((oeDelitem ⟨⟨[("X", SVal.atom (.int 0))], [], true, false⟩,
        [("X", SVal.atom (.int 1))]⟩ "X").1).subject
      ≠ (⟨[("X", SVal.atom (.int 0))], [], true, false⟩ : Env) :=
  ⟨by decide, rfl, by decide⟩

/-- C1 (amended): for every OverrideEnvironment and key present in both the
override layer and the subject's store (with dict-like unique keys, and the
key not `SCANNERS`, whose delete path only differs by the cache flag),
deleting through the public deleter succeeds and removes the key from *both*
layers, so a subsequent read raises `KeyError` rather than falling back. -/
theorem oeDelitem_removes_key_from_override_and_subject (oe : OEnv) (k : String)
    (hov : (aget oe.overrides k).isSome = true)
    (hsub : (aget oe.subject.vars k).isSome = true)
    (hsc : k ≠ "SCANNERS")
    (hnd1 : (oe.overrides.map Prod.fst).Nodup)
    (hnd2 : (oe.subject.vars.map Prod.fst).Nodup) :
    (oeDelitem oe k).2 = Option.none ∧
    aget ((oeDelitem oe k).1).overrides k = Option.none ∧
    aget ((oeDelitem oe k).1).subject.vars k = Option.none ∧
    oeGetitem ((oeDelitem oe k).1) k = .error ("KeyError: " ++ k) := by
  have hfound : ((adel oe.subject.vars k).1) = true := by
    rw [adel_found_iff]; exact hsub
  have hdel : delitem oe.subject k =
      ({ oe.subject with vars := (adel oe.subject.vars k).2 }, Option.none) := by
    rw [delitem, if_neg hsc]
    simp [hfound]
  have hsubafter : aget (adel oe.subject.vars k).2 k = Option.none :=
    aget_adel_none _ _ hnd2
  have hovafter : aget (adel oe.overrides k).2 k = Option.none :=
    aget_adel_none _ _ hnd1
  refine ⟨?_, ?_, ?_, ?_⟩ <;>
    simp [oeDelitem, hdel, oeGetitem, getitem, hsubafter, hovafter]

/-- C1 (witness for the amended theorem). -/
theorem oeDelitem_removes_key_from_override_and_subject_witness :
    (oeDelitem ⟨⟨[("X", SVal.atom (.int 0))], [], true, false⟩,
        [("X", SVal.atom (.int 1))]⟩ "X").2 = Option.none ∧
    aget ((oeDelitem ⟨⟨[("X", SVal.atom (.int 0))], [], true, false⟩,
        [("X", SVal.atom (.int 1))]⟩ "X").1).overrides "X" = Option.none ∧
    aget ((oeDelitem ⟨⟨[("X", SVal.atom (.int 0))], [], true, false⟩,
        [("X", SVal.atom (.int 1))]⟩ "X").1).subject.vars "X" = Option.none ∧
    oeGetitem ((oeDelitem ⟨⟨[("X", SVal.atom (.int 0))], [], true, false⟩,
        [("X", SVal.atom (.int 1))]⟩ "X").1) "X" = .error ("KeyError: " ++ "X") :=
  oeDelitem_removes_key_from_override_and_subject
    ⟨⟨[("X", SVal.atom (.int 0))], [], true, false⟩, [("X", SVal.atom (.int 1))]⟩
    "X" (by decide) (by decide) (by decide) (by decide) (by decide)

/-- C2 (counterexample): on an OverrideEnvironment, setting the reserved name
`TARGET` is *not* a no-op: the value lands in the override layer and a
subsequent `get` returns it (before the call it was absent). -/
theorem reserved_set_override_env_cex :
    oeGet ((oeSetitem ⟨⟨[], [], true, false⟩, []⟩ "TARGET"
        (SVal.atom (.int 1))).1) "TARGET" = some (SVal.atom (.int 1)) ∧
    oeGet (⟨⟨[], [], true, false⟩, []⟩ : OEnv) "TARGET" = Option.none := by
  decide

/-- C2 (amended): for a Base environment, setting any reserved name is a
warned no-op — no error, the store and `get` are unchanged, and a
`ReservedVariableWarning` is emitted; but for an OverrideEnvironment the
public setter has no reserved-name dispatch: the write succeeds without a
warning, the value is stored in the override layer (so `get` returns it) and
only the subject is left unchanged. -/
theorem reserved_set_base_noop_override_stores (e : Env) (oe : OEnv)
    (k : String) (v : SVal) (hk : k ∈ reserved_construction_var_names) :
    (setitem e k v).2 = Option.none ∧
    ((setitem e k v).1).vars = e.vars ∧
    ((setitem e k v).1).warnings = e.warnings ++ [reservedWarning k] ∧
    ((setitem e k v).1).get k = e.get k ∧
    (oeSetitem oe k v).2 = Option.none ∧
    ((oeSetitem oe k v).1).subject = oe.subject ∧
    oeGet ((oeSetitem oe k v).1) k = some v := by
  have hvalid : is_valid_construction_var k = true := by
    simp only [reserved_construction_var_names, List.mem_cons,
      List.mem_singleton] at hk
    rcases hk with rfl | rfl | rfl | rfl | rfl | rfl | rfl | hk
    · decide
    · decide
    · decide
    · decide
    · decide
    · decide
    · decide
    · simp only [List.mem_singleton, List.not_mem_nil, or_false] at hk
      subst hk
      decide
  have hbase : setitem e k v = (_set_reserved e k v, Option.none) := by
    rw [setitem, if_pos hk]
  have hoe : oeSetitem oe k v =
      ({ oe with overrides := aset oe.overrides k v }, Option.none) := by
    rw [oeSetitem, hvalid]
    simp
  refine ⟨?_, ?_, ?_, ?_, ?_, ?_, ?_⟩ <;>
    simp [hbase, hoe, _set_reserved, warn, Env.get, oeGet, aget_aset_same]

/-- C2 (witness for the amended theorem). -/
theorem reserved_set_base_noop_override_stores_witness :
    (setitem ⟨[], [], true, false⟩ "TARGET" (SVal.atom (.int 1))).2 = Option.none ∧
    ((setitem ⟨[], [], true, false⟩ "TARGET" (SVal.atom (.int 1))).1).vars
      = (⟨[], [], true, false⟩ : Env).vars ∧
    ((setitem ⟨[], [], true, false⟩ "TARGET" (SVal.atom (.int 1))).1).warnings
      = (⟨[], [], true, false⟩ : Env).warnings ++ [reservedWarning "TARGET"] ∧
    ((setitem ⟨[], [], true, false⟩ "TARGET" (SVal.atom (.int 1))).1).get "TARGET"
      = (⟨[], [], true, false⟩ : Env).get "TARGET" ∧
    (oeSetitem ⟨⟨[], [], true, false⟩, []⟩ "TARGET" (SVal.atom (.int 1))).2
      = Option.none ∧
    ((oeSetitem ⟨⟨[], [], true, false⟩, []⟩ "TARGET" (SVal.atom (.int 1))).1).subject
      = (⟨⟨[], [], true, false⟩, []⟩ : OEnv).subject ∧
    oeGet ((oeSetitem ⟨⟨[], [], true, false⟩, []⟩ "TARGET" (SVal.atom (.int 1))).1)
        "TARGET" = some (SVal.atom (.int 1)) :=
  reserved_set_base_noop_override_stores ⟨[], [], true, false⟩
    ⟨⟨[], [], true, false⟩, []⟩ "TARGET" (SVal.atom (.int 1)) (by decide)

/-- C3 (counterexample): appending `["C"]` to the `CPPDEFINES` mapping
`{A: None, B: 1}` stores `[("A",), ("B", 1), "C"]` — the appended element
stays the bare string `"C"`, it is *not* wrapped into the 1-tuple `("C",)`
that the claim states. -/
theorem append_cppdefines_tuple_form_cex :
    AppendOne "CPPDEFINES"
        (some (.dict [(.str "A", .none), (.str "B", .int 1)]))
        (.list [.atom (.str "C")])
      = .ok (.list [.tup [.str "A"], .tup [.str "B", .int 1], .atom (.str "C")]) ∧
    (SVal.list [.tup [.str "A"], .tup [.str "B", .int 1], .atom (.str "C")])
      ≠ .list [.tup [.str "A"], .tup [.str "B", .int 1], .tup [.str "C"]] :=
  ⟨rfl, by decide⟩

/-- C3 (amended): when `CPPDEFINES` holds a mapping and `Append` gets a list,
the stored result is the ordered sequence of the mapping's entries exploded
into 1-tuples (`None` values) and 2-tuples, followed by the incoming
elements *verbatim* (they keep their original form and are not wrapped into
tuples); the result is a list, never coalesced back into a mapping.  In
particular `{A: None, B: 1}` with `["C"]` yields
`[("A",), ("B", 1), "C"]`. -/
theorem append_cppdefines_explodes_dict_appends_verbatim
    (es : List (Atom × Atom)) (xs : List Elem) :
    AppendOne "CPPDEFINES" (some (.dict es)) (.list xs)
      = .ok (.list (explodeDict es ++ xs)) := rfl

/-- C4 (counterexample): `AppendUnique(delete_existing=True)` on existing
`X=[a,b]` with incoming `[b,c]` produces `[a,b,c]`, not the `[a,c,b]` the
claim states — the duplicate `b` re-enters at its position in the incoming
list (before `c`), not at the very end. -/
theorem appendUnique_delete_existing_order_cex :
    appendUniqueOne true "X"
        (some (.list [.atom (.str "a"), .atom (.str "b")]))
        (.list [.atom (.str "b"), .atom (.str "c")])
      = .ok (.list [.atom (.str "a"), .atom (.str "b"), .atom (.str "c")]) ∧
    (SVal.list [.atom (.str "a"), .atom (.str "b"), .atom (.str "c")])
      ≠ .list [.atom (.str "a"), .atom (.str "c"), .atom (.str "b")] :=
  ⟨rfl, by decide⟩

/-- C4 (amended): for `AppendUnique` on a list-valued (non-`CPPDEFINES`)
variable with distinct elements `a, b, c`, existing `X=[a,b]` and incoming
`[b,c]`: with `delete_existing=False` the result is `[a,b,c]` (the element
already present keeps its original position and is not re-added); with
`delete_existing=True` the result is *also* `[a,b,c]` — the duplicate `b` is
removed from its old position but re-added at its position within the
incoming list, i.e. before `c`, not moved past it to the end. -/
theorem appendUnique_existing_and_incoming_order (key : String) (a b c : Elem)
    (hkey : key ≠ "CPPDEFINES") (hab : a ≠ b) (hbc : b ≠ c) (hac : a ≠ c) :
    appendUniqueOne false key (some (.list [a, b])) (.list [b, c])
      = .ok (.list [a, b, c]) ∧
    appendUniqueOne true key (some (.list [a, b])) (.list [b, c])
      = .ok (.list [a, b, c]) := by
  have hdd : ∀ kl : Bool, (delete_duplicates [b, c] kl).1 = [b, c] := by
    intro kl
    cases kl <;>
      cases hhb : b.hashable <;> cases hhc : c.hashable <;>
        simp [delete_duplicates, ddLoop, hhb, hhc, hbc, Ne.symm hbc]
  constructor <;>
    simp [appendUniqueOne, hdd, hkey, hab, hbc, hac,
      Ne.symm hab, Ne.symm hbc, Ne.symm hac]

/-- C4 (witness for the amended theorem). -/
theorem appendUnique_existing_and_incoming_order_witness :
    (appendUniqueOne false "X"
        (some (.list [.atom (.str "a"), .atom (.str "b")]))
        (.list [.atom (.str "b"), .atom (.str "c")])
      = .ok (.list [.atom (.str "a"), .atom (.str "b"), .atom (.str "c")])) ∧
    (appendUniqueOne true "X"
        (some (.list [.atom (.str "a"), .atom (.str "b")]))
        (.list [.atom (.str "b"), .atom (.str "c")])
      = .ok (.list [.atom (.str "a"), .atom (.str "b"), .atom (.str "c")])) :=
  appendUnique_existing_and_incoming_order "X"
    (.atom (.str "a")) (.atom (.str "b")) (.atom (.str "c"))
    (by decide) (by decide) (by decide) (by decide)

/-- C5: for every key processed by `MergeFlags` with `unique=True` and a
non-empty incoming value, the existing value and the incoming value are
concatenated and then de-duplicated: a key whose name ends in `PATH` keeps
the left-most occurrence of each element (`(l.reverse.dedup).reverse`, i.e.
first occurrences win), every other key keeps the right-most occurrence
(`l.dedup` keeps last occurrences); the result is stored as the variable's
new value. -/
theorem mergeFlags_unique_dedup_spec (key : String)
    (origOpt : Option (List String)) (value : List String) (hv : value ≠ []) :
    mergeFlagsOne key origOpt value =
      some (if strTakeRight key 4 = "PATH"
            then (((origOpt.getD [] ++ value).reverse.dedup).reverse)
            else (origOpt.getD [] ++ value).dedup) := by
  have horig : mergeFlagsCombine origOpt value = origOpt.getD [] ++ value := by
    cases origOpt with
    | none => simp [mergeFlagsCombine]
    | some o =>
        by_cases ho : o = [] <;> simp [mergeFlagsCombine, ho]
  rw [mergeFlagsOne, if_neg hv, horig]
  by_cases hp : strTakeRight key 4 = "PATH"
  · rw [if_pos hp, if_pos hp, keepLeftLoop_eq_dedup]
  · rw [if_neg hp, if_neg hp, keepRightLoop_reverse_eq_dedup]

/-- C5 (witness): the spec's `CPPPATH` example — merging the same include
path twice keeps one occurrence at its original left position; and the
non-`PATH` key example keeps the right-most occurrence. -/
theorem mergeFlags_unique_dedup_spec_witness :
    mergeFlagsOne "CPPPATH" (some ["/usr/include"]) ["/usr/include", "/other"] =
      some (if strTakeRight "CPPPATH" 4 = "PATH"
            then ((((some ["/usr/include"]).getD [] ++
                ["/usr/include", "/other"]).reverse.dedup).reverse)
            else ((some ["/usr/include"]).getD [] ++
                ["/usr/include", "/other"]).dedup) :=
  mergeFlags_unique_dedup_spec "CPPPATH" (some ["/usr/include"])
    ["/usr/include", "/other"] (by decide)

/-- C6: `ParseFlags` on `"-I/inc -DFOO=1 -lm -Wl,-rpath=/opt/lib"` yields
`CPPPATH=["/inc"]`, `CPPDEFINES=[["FOO","1"]]`, `LIBS=["m"]`,
`RPATH=["/opt/lib"]`, and all the other fixed output keys empty. -/
theorem parseFlags_example_classification :
    ParseFlags "-I/inc -DFOO=1 -lm -Wl,-rpath=/opt/lib" =
      { ASFLAGS := [], CFLAGS := [], CCFLAGS := [], CXXFLAGS := [],
        CPPDEFINES := [.nameValue ["FOO", "1"]], CPPFLAGS := [],
        CPPPATH := ["/inc"], FRAMEWORKPATH := [], FRAMEWORKS := [],
        LIBPATH := [], LIBS := [.str "m"], LINKFLAGS := [],
        RPATH := ["/opt/lib"] } := by
  decide

/-- C7: `Decider(f)` succeeds exactly for the known symbolic names and for
callables, and then installs the selected function as both `decide_source`
and `decide_target`, with `cache_timestamp_newer` true exactly for
`timestamp-newer`/`make`; for any other (non-callable) argument it raises
the `UserError` reporting an unknown Decider value, having already reset the
cache flag. -/
theorem decider_selection_spec (e : DeciderEnv) (arg : DeciderArg) :
    match Decider e arg with
    | (e', Option.none) =>
        validDeciderArg arg = true ∧
        e'.decide_source = e'.decide_target ∧
        e'.cache_timestamp_newer = cacheFlagExpected arg
    | (e', some msg) =>
        validDeciderArg arg = false ∧
        e' = { e with cache_timestamp_newer := false } ∧
        ∃ t, msg = "UserError: Unknown Decider value " ++ t := by
  cases arg with
  | callable id => exact ⟨rfl, rfl, rfl⟩
  | str s =>
      by_cases h1 : s = "MD5"
      · subst h1; exact ⟨rfl, rfl, rfl⟩
      · by_cases h2 : s = "content"
        · subst h2; exact ⟨rfl, rfl, rfl⟩
        · by_cases h3 : s = "MD5-timestamp"
          · subst h3; exact ⟨rfl, rfl, rfl⟩
          · by_cases h4 : s = "content-timestamp"
            · subst h4; exact ⟨rfl, rfl, rfl⟩
            · by_cases h5 : s = "timestamp-newer"
              · subst h5; exact ⟨rfl, rfl, rfl⟩
              · by_cases h6 : s = "make"
                · subst h6; exact ⟨rfl, rfl, rfl⟩
                · by_cases h7 : s = "timestamp-match"
                  · subst h7; exact ⟨rfl, rfl, rfl⟩
                  · have hD : Decider e (.str s) =
                        ({ e with cache_timestamp_newer := false },
                         some ("UserError: Unknown Decider value " ++ s)) := by
                      simp [Decider, h1, h2, h3, h4, h5, h6, h7]
                    rw [hD]
                    refine ⟨?_, rfl, s, rfl⟩
                    simp [validDeciderArg, h1, h2, h3, h4, h5, h6, h7]

/-- C8: for the Base setter with `k` outside the special-set table (not
reserved, not `BUILDERS`/`SCANNERS`): if `k` is not already present and
fails the `[_a-zA-Z]\w*` identifier check, the call raises the
`IllegalVariableName` `UserError` and the store is left unchanged; if `k`
is a valid identifier, the value is stored verbatim and `get(k)` returns it
immediately afterward. -/
theorem setitem_illegal_or_verbatim (e : Env) (k : String) (v : SVal)
    (hns : k ∉ reserved_construction_var_names)
    (hb : k ≠ "BUILDERS") (hsc : k ≠ "SCANNERS") :
    ((aget e.vars k = Option.none ∧ is_valid_construction_var k = false) →
      setitem e k v = (e, some ("UserError: Illegal construction variable " ++ k))) ∧
    (is_valid_construction_var k = true →
      setitem e k v = ({ e with vars := aset e.vars k v }, Option.none) ∧
      ((setitem e k v).1).get k = some v) := by
  have hfut : k ∉ future_reserved_construction_var_names := by
    simp [future_reserved_construction_var_names]
  rw [setitem, if_neg hns, if_neg hfut, if_neg hb, if_neg hsc]
  constructor
  · rintro ⟨hnone, hbad⟩
    rw [is_valid_construction_var, Bool.or_eq_false_iff] at hbad
    have hc : ((aget e.vars k).isNone && !validVarCore k &&
        !(strTakeRight k 1 = "\n" && validVarCore (strDropRight k 1))) = true := by
      simp [hnone, hbad.1, hbad.2]
    rw [if_pos hc]
  · intro hval
    rw [is_valid_construction_var, Bool.or_eq_true] at hval
    split
    · rename_i hcond
      exfalso
      rw [Bool.and_eq_true, Bool.and_eq_true] at hcond
      obtain ⟨⟨_, hnc⟩, hnl⟩ := hcond
      rcases hval with hval | hval
      · rw [hval] at hnc
        exact absurd hnc (by decide)
      · rw [hval] at hnl
        exact absurd hnl (by decide)
    · exact ⟨rfl, by simp [Env.get, aget_aset_same]⟩

/-- C8 (witness): instantiated at the valid fresh key `FOO`. -/
theorem setitem_illegal_or_verbatim_witness :
    ((aget (⟨[], [], true, false⟩ : Env).vars "FOO" = Option.none ∧
        is_valid_construction_var "FOO" = false) →
      setitem ⟨[], [], true, false⟩ "FOO" (SVal.atom (.int 1))
        = (⟨[], [], true, false⟩,
           some ("UserError: Illegal construction variable " ++ "FOO"))) ∧
    (is_valid_construction_var "FOO" = true →
      setitem ⟨[], [], true, false⟩ "FOO" (SVal.atom (.int 1))
        = ({ (⟨[], [], true, false⟩ : Env) with
              vars := aset (⟨[], [], true, false⟩ : Env).vars "FOO"
                (SVal.atom (.int 1)) }, Option.none) ∧
      ((setitem ⟨[], [], true, false⟩ "FOO" (SVal.atom (.int 1))).1).get "FOO"
        = some (SVal.atom (.int 1))) :=
  setitem_illegal_or_verbatim ⟨[], [], true, false⟩ "FOO" (SVal.atom (.int 1))
    (by decide) (by decide) (by decide)

/-- C9: `Clone` gives the cloned environment a fresh list object for each
list-valued variable (same contents, different address), so mutating the
variable through the clone leaves the original's view unchanged and vice
versa; the clone's `BUILDERS` registry is its own record field holding the
*same* builder objects as the original's. -/
theorem clone_variable_independence (h : Heap) (e : CEnv) (k : String)
    (a a' : Nat) (xs : List Elem)
    (hwf : EnvAddrsWF e h)
    (ha : aget e.vars k = some a)
    (ha' : aget (cloneEnv h e).2.vars k = some a') :
    a ≠ a' ∧
    (cloneEnv h e).1.read a' = h.read a ∧
    readVar (mutateVar (cloneEnv h e).1 (cloneEnv h e).2 k xs) e k
      = readVar (cloneEnv h e).1 e k ∧
    readVar (mutateVar (cloneEnv h e).1 e k xs) (cloneEnv h e).2 k
      = readVar (cloneEnv h e).1 (cloneEnv h e).2 k ∧
    (cloneEnv h e).2.builders = e.builders := by
  obtain ⟨a'', h1, h2, h3⟩ := copyVars_lookup e.vars h k a hwf ha
  have hv : (cloneEnv h e).2.vars = (copyVars h e.vars).2 := rfl
  rw [hv] at ha'
  have haa : a' = a'' := Option.some.inj (ha'.symm.trans h1)
  subst haa
  have halt : a < h.cells.length := hwf (k, a) (aget_mem _ _ _ ha)
  have hne : a ≠ a' := by omega
  have hh1 : (cloneEnv h e).1 = (copyVars h e.vars).1 := rfl
  refine ⟨hne, by rw [hh1]; exact h3, ?_, ?_, rfl⟩
  · have hm : mutateVar (cloneEnv h e).1 (cloneEnv h e).2 k xs
        = ((cloneEnv h e).1).write a' xs := by
      rw [mutateVar, hv, h1]
    rw [hm, readVar, readVar, ha]
    simp [Heap.read_write_ne _ _ _ _ hne]
  · have hm : mutateVar (cloneEnv h e).1 e k xs
        = ((cloneEnv h e).1).write a xs := by
      rw [mutateVar, ha]
    rw [hm, readVar, readVar, hv, h1]
    simp [Heap.read_write_ne _ _ _ _ (Ne.symm hne)]

/-- C9 (witness): a one-variable environment with one builder. -/
theorem clone_variable_independence_witness :
    (0 : Nat) ≠ 1 ∧
    (cloneEnv ⟨[[Elem.atom (.int 7)]]⟩ ⟨[("X", 0)], [("B", 3)]⟩).1.read 1
      = Heap.read ⟨[[Elem.atom (.int 7)]]⟩ 0 ∧
    readVar (mutateVar (cloneEnv ⟨[[Elem.atom (.int 7)]]⟩ ⟨[("X", 0)], [("B", 3)]⟩).1
        (cloneEnv ⟨[[Elem.atom (.int 7)]]⟩ ⟨[("X", 0)], [("B", 3)]⟩).2 "X" [])
        ⟨[("X", 0)], [("B", 3)]⟩ "X"
      = readVar (cloneEnv ⟨[[Elem.atom (.int 7)]]⟩ ⟨[("X", 0)], [("B", 3)]⟩).1
          ⟨[("X", 0)], [("B", 3)]⟩ "X" ∧
    readVar (mutateVar (cloneEnv ⟨[[Elem.atom (.int 7)]]⟩ ⟨[("X", 0)], [("B", 3)]⟩).1
        ⟨[("X", 0)], [("B", 3)]⟩ "X" [])
        (cloneEnv ⟨[[Elem.atom (.int 7)]]⟩ ⟨[("X", 0)], [("B", 3)]⟩).2 "X"
      = readVar (cloneEnv ⟨[[Elem.atom (.int 7)]]⟩ ⟨[("X", 0)], [("B", 3)]⟩).1
          (cloneEnv ⟨[[Elem.atom (.int 7)]]⟩ ⟨[("X", 0)], [("B", 3)]⟩).2 "X" ∧
    (cloneEnv ⟨[[Elem.atom (.int 7)]]⟩ ⟨[("X", 0)], [("B", 3)]⟩).2.builders
      = (⟨[("X", 0)], [("B", 3)]⟩ : CEnv).builders :=
  clone_variable_independence ⟨[[Elem.atom (.int 7)]]⟩ ⟨[("X", 0)], [("B", 3)]⟩
    "X" 0 1 []
    (by intro p hp; rw [List.mem_singleton] at hp; subst hp; decide)
    (by decide) (by decide)

/-- C10 (counterexample): the caller's keyword list `[b, c]` is *not*
reversed by `AppendUnique(delete_existing=True)`: after the call the
caller's list object still reads `[b, c]`, not the reversed `[c, b]` the
claim asserts — only the semi-deep copy handed to `_delete_duplicates` was
reversed. -/
theorem caller_list_not_reversed_cex :
    (uniqueKwListState ⟨[[Elem.atom (.str "b"), Elem.atom (.str "c")]]⟩ 0 true).read 0
      = [Elem.atom (.str "b"), Elem.atom (.str "c")] ∧
    [Elem.atom (.str "b"), Elem.atom (.str "c")]
      ≠ [Elem.atom (.str "c"), Elem.atom (.str "b")] :=
  ⟨rfl, by decide⟩

/-- C10 (amended): `_delete_duplicates(l, keep_last=True)` does reverse the
list object passed to it in place and never restores it; but
`AppendUnique`/`PrependUnique` pass it the list from the semi-deep copy
`copy_non_reserved_keywords` makes of the keyword dict, so the caller's own
list object is left unchanged — the reversal lands on the fresh copy. -/
theorem delete_duplicates_mutates_copy_not_caller (h : Heap) (a : Nat)
    (keep_last : Bool) (l : List Elem) (ha : a < h.cells.length) :
    (delete_duplicates l true).2 = l.reverse ∧
    (uniqueKwListState h a keep_last).read a = h.read a ∧
    (uniqueKwListState h a true).read h.cells.length = (h.read a).reverse := by
  have hfresh : ∀ kl : Bool, uniqueKwListState h a kl
      = (Heap.mk (h.cells ++ [h.read a])).write h.cells.length
          (delete_duplicates (Heap.read ⟨h.cells ++ [h.read a]⟩ h.cells.length) kl).2 := by
    intro kl
    rfl
  have hra : Heap.read ⟨h.cells ++ [h.read a]⟩ h.cells.length = h.read a := by
    simpa [Heap.alloc] using Heap.read_alloc_fresh h (h.read a)
  refine ⟨rfl, ?_, ?_⟩
  · rw [hfresh keep_last,
      Heap.read_write_ne _ _ _ _ (by omega),
      Heap.read_append h [h.read a] a ha]
  · rw [hfresh true, Heap.read_write_self _ _ _ (by simp), hra]
    rfl

/-- C10 (witness for the amended theorem). -/
theorem delete_duplicates_mutates_copy_not_caller_witness :
    (delete_duplicates [Elem.atom (.str "b"), Elem.atom (.str "c")] true).2
      = [Elem.atom (.str "b"), Elem.atom (.str "c")].reverse ∧
    (uniqueKwListState ⟨[[Elem.atom (.str "b"), Elem.atom (.str "c")]]⟩ 0 true).read 0
      = Heap.read ⟨[[Elem.atom (.str "b"), Elem.atom (.str "c")]]⟩ 0 ∧
    (uniqueKwListState ⟨[[Elem.atom (.str "b"), Elem.atom (.str "c")]]⟩ 0 true).read
        (Heap.mk [[Elem.atom (.str "b"), Elem.atom (.str "c")]]).cells.length
      = (Heap.read ⟨[[Elem.atom (.str "b"), Elem.atom (.str "c")]]⟩ 0).reverse :=
  delete_duplicates_mutates_copy_not_caller
    ⟨[[Elem.atom (.str "b"), Elem.atom (.str "c")]]⟩ 0 true
    [Elem.atom (.str "b"), Elem.atom (.str "c")] (by decide)

end SConsEnv
